import Mathlib

/-!
Verification development for the `gix` git-profile manager.

The definitions below are a shallow embedding of the Rust sources
(`src/config.rs`, `src/git.rs`, `src/profile.rs`).  External effects
(subprocess invocations of the underlying `git` tool, interactive prompts,
file-system reads/writes) are made explicit: query results are supplied by
an `Env` record, and every externally visible action is recorded in a trace
of `Event`s, so that theorems can speak about which subprocesses are started
and in which order.
-/

namespace Gix

/-- Authentication method for Git operations (src/profile.rs, `AuthMethod`). -/
inductive AuthMethod where
  | SSH (key_path : String)
  | Token (token : String)
deriving DecidableEq

/-- User profile containing Git identity and authentication
(src/profile.rs, `Profile`); field order follows the Rust struct. -/
structure Profile where
  name : String
  email : String
  auth : AuthMethod
  profile_name : String
deriving DecidableEq

/-- Global configuration (src/config.rs, `Config`). -/
structure Config where
  profiles : List Profile
  intercepted_commands : List String
  default_profile : Option String
deriving DecidableEq

/-- Local repository configuration (src/config.rs, `LocalConfig`). -/
structure LocalConfig where
  selected_profile : Option String
deriving DecidableEq

/-- Default commands to intercept (src/config.rs, `default_intercepted_commands`). -/
def default_intercepted_commands : List String :=
  ["pull", "push", "fetch", "clone"]

/-- What the file system holds at a given path, as far as `validate` and the
post-clone directory detection need to observe it. -/
inductive FileStat where
  | missing
  | regular
  | dir
deriving DecidableEq

/-- Rust `str::contains(char)`: some character of the string equals `c`.
Stated over the character list so that it reduces definitionally. -/
def strContains (s : String) (c : Char) : Bool :=
  s.data.contains c

/-- Rust `str::is_empty`. -/
def strIsEmpty (s : String) : Bool :=
  s.data.isEmpty

/-- Rust `str::trim`: drop whitespace from both ends (the values in play
only ever carry ASCII whitespace). -/
def strTrim (s : String) : String :=
  String.mk (((s.data.dropWhile Char.isWhitespace).reverse.dropWhile
    Char.isWhitespace).reverse)

/-- Profile validation (src/profile.rs, `Profile::validate` together with
`Profile::validate_ssh_key`).  `fs` models the file system consulted for the
SSH key path; the permission check of `validate_ssh_key` only prints a
warning and never fails, so it does not appear in the result. -/
def Profile.validate (fs : String → FileStat) (p : Profile) : Except String Unit :=
  if !(strContains p.email '@') || !(strContains p.email '.') then
    Except.error "Invalid email format"
  else if strIsEmpty p.profile_name then
    Except.error "Profile name cannot be empty"
  else if strContains p.profile_name '/' || strContains p.profile_name '\\' then
    Except.error "Profile name cannot contain path separators"
  else
    match p.auth with
    | AuthMethod.SSH key_path =>
      match fs key_path with
      | FileStat.missing => Except.error "SSH key not found"
      | FileStat.dir => Except.error "SSH key path is not a file"
      | FileStat.regular => Except.ok ()
    | AuthMethod.Token _ => Except.ok ()

/-- Interactive profile selection (src/profile.rs, `select_profile`).
`interact` is the result of the `Select` prompt: `some i` is the chosen
index, `none` is an interaction error, which the source maps to index `0`
via `unwrap_or(0)`.  The prompt library only ever yields an in-range index,
so the final lookup cannot fail for such inputs. -/
def select_profile (interact : Option Nat) (config : Config) : Option Profile :=
  if config.profiles.isEmpty then none
  else
    let selection := interact.getD 0
    config.profiles[selection]?

/-- Externally visible actions of a single `gix` invocation. -/
inductive Event where
  /-- A subprocess of the underlying `git` tool: optional `GIT_SSH_COMMAND`
  environment override, optional working directory, argument vector. -/
  | spawn (sshEnv : Option String) (cwd : Option String) (args : List String)
  /-- The interactive profile-selection menu was shown. -/
  | promptSelect
  /-- The "configure this repository to always use this profile?" confirmation
  was shown. -/
  | promptPersist
  /-- An audit-log line was appended (src/git.rs, `log_usage`). -/
  | logWrite (profile_name : String) (args : List String)
  /-- A local `.gix/config.json` profile selection was written;
  `none` means the process working directory. -/
  | saveLocalSelection (dir : Option String) (profile_name : String)
  /-- A credential record was piped to `git credential approve`. -/
  | credentialPipe (host username token : String)
deriving DecidableEq

/-- Results of the external queries and prompts a single invocation may
perform, fixed up front so the modelled run is deterministic. -/
structure Env where
  /-- Parsed content of the local config consulted by `load_local_config`
  (`none` covers both a missing and an unparsable file). -/
  localConfig : Option LocalConfig
  /-- Result of `git rev-parse --is-inside-work-tree` (`is_inside_git_repo`). -/
  insideRepo : Bool
  /-- Result of `git config --local user.email`: `none` if the subprocess
  could not run, otherwise (status success, raw stdout). -/
  configEmailOutput : Option (Bool × String)
  /-- Result of the `Select` prompt; `none` is an interaction error. -/
  selectInteract : Option Nat
  /-- Result of the persistence `Confirm` prompt; `none` is an interaction
  error, which the source propagates with `?`. -/
  confirmPersist : Option Bool
  /-- Whether writing the local profile selection file succeeds. -/
  saveLocalOk : Bool
  /-- Whether appending to the usage log succeeds. -/
  logOk : Bool
  /-- Result of `git remote get-url origin`. -/
  remoteOriginUrl : Option (Bool × String)
  /-- Exit code of the delegated / passed-through `git` invocation
  (`0` = success; a signal-terminated child is modelled as `1`). -/
  delegatedStatus : Nat
  /-- File system, for SSH-key existence and cloned-directory detection. -/
  fileStat : String → FileStat
  /-- Whether the post-clone local profile selection write succeeds. -/
  saveCloneOk : Bool

/-- The spawn event of `is_inside_git_repo` (src/git.rs). -/
def revParseSpawn : Event :=
  Event.spawn none none ["rev-parse", "--is-inside-work-tree"]

/-- The spawn event of the local user-email query in `detect_profile`. -/
def configEmailSpawn : Event :=
  Event.spawn none none ["config", "--local", "user.email"]

/-- Profile detection (src/git.rs, `detect_profile`), returning the `git`
subprocesses it starts alongside its result.  Step 1 reads the local config,
step 2 the global default, step 3 queries the working tree's own
locally-configured user email. -/
def detect_profile (env : Env) (config : Config) : List Event × Option Profile :=
  match (env.localConfig.bind (fun lc => lc.selected_profile)).bind
      (fun n => config.profiles.find? (fun p => p.profile_name == n)) with
  | some p => ([], some p)
  | none =>
    match config.default_profile.bind
        (fun n => config.profiles.find? (fun p => p.profile_name == n)) with
    | some p => ([], some p)
    | none =>
      if !env.insideRepo then ([revParseSpawn], none)
      else
        match env.configEmailOutput with
        | none => ([revParseSpawn, configEmailSpawn], none)
        | some (succ, out) =>
          if !succ then ([revParseSpawn, configEmailSpawn], none)
          else
            let email := strTrim out
            if strIsEmpty email then ([revParseSpawn, configEmailSpawn], none)
            else ([revParseSpawn, configEmailSpawn],
              config.profiles.find? (fun p => p.email == email))

/-- The SSH command string built for a key path (src/git.rs). -/
def sshCommandFor (key_path : String) : String :=
  "ssh -i " ++ key_path ++ " -o IdentitiesOnly=yes"

/-- Local application of a profile (src/git.rs, `apply_local_config`):
writes the selection file, then configures `user.name`, `user.email` and the
repository's SSH command override.  The boolean is whether it succeeded
(it fails when the selection write fails). -/
def apply_local_config (env : Env) (profile : Profile) : List Event × Bool :=
  let e0 := Event.saveLocalSelection none profile.profile_name
  if !env.saveLocalOk then ([e0], false)
  else
    let es := [e0,
      Event.spawn none none ["config", "--local", "user.name", profile.name],
      Event.spawn none none ["config", "--local", "user.email", profile.email]]
    match profile.auth with
    | AuthMethod.SSH key_path =>
      (es ++ [Event.spawn none none
        ["config", "--local", "core.sshCommand", sshCommandFor key_path]], true)
    | AuthMethod.Token _ =>
      (es ++ [Event.spawn none none
        ["config", "--local", "--unset", "core.sshCommand"]], true)

/-- Like `apply_local_config` but targeting a specific directory
(src/git.rs, `apply_local_config_to_dir`); no selection file is written
here and all subprocesses run with `dir` as working directory. -/
def apply_local_config_to_dir (profile : Profile) (dir : String) : List Event :=
  [Event.spawn none (some dir) ["config", "--local", "user.name", profile.name],
   Event.spawn none (some dir) ["config", "--local", "user.email", profile.email]] ++
  match profile.auth with
  | AuthMethod.SSH key_path =>
    [Event.spawn none (some dir)
      ["config", "--local", "core.sshCommand", sshCommandFor key_path]]
  | AuthMethod.Token _ =>
    [Event.spawn none (some dir) ["config", "--local", "--unset", "core.sshCommand"]]

/-- Host extraction of `inject_token_credential`: strip `https://` (8 bytes)
and take the text before the first `/`.  Rust's `split('/').next()` always
yields the first segment, so the `unwrap_or("github.com")` default is dead. -/
def hostOf (url : String) : String :=
  ((url.drop 8).splitOn "/").headD "github.com"

/-- Token credential injection (src/git.rs, `inject_token_credential`):
query the `origin` remote, and only for an `https://` URL pipe a one-shot
credential record to `git credential approve`. -/
def inject_token_credential (env : Env) (username token : String) : List Event :=
  let e0 := Event.spawn none none ["remote", "get-url", "origin"]
  match env.remoteOriginUrl with
  | some (true, out) =>
    let url := strTrim out
    if url.startsWith "https://" then
      [e0, Event.spawn none none ["credential", "approve"],
       Event.credentialPipe (hostOf url) username token]
    else [e0]
  | _ => [e0]

/-- Strip every trailing `".git"` from a reversed character list
(Rust `trim_end_matches(".git")`, which strips the suffix repeatedly). -/
def trimEndGitRev : List Char → List Char
  | 't' :: 'i' :: 'g' :: '.' :: rest => trimEndGitRev rest
  | l => l

/-- Rust `s.trim_end_matches(".git")`. -/
def trimEndMatchesGit (s : String) : String :=
  String.mk (trimEndGitRev s.data.reverse).reverse

/-- Scan arguments (already reversed) for a URL-shaped one whose derived
directory name exists (second heuristic of `detect_cloned_dir`). -/
def findUrlDir (fs : String → FileStat) : List String → Option String
  | [] => none
  | arg :: rest =>
    if arg.endsWith ".git" || arg.startsWith "git@" || arg.startsWith "http" then
      let name := trimEndMatchesGit (((arg.splitOn "/").getLast?).getD "")
      if fs name == FileStat.dir then some name else findUrlDir fs rest
    else findUrlDir fs rest

/-- Directory detection after a clone (src/git.rs, `detect_cloned_dir`):
first the last argument if it does not look like a flag or URL and exists as
a directory, otherwise the last URL-shaped argument with its final path
segment (minus any `.git` suffix), if that exists as a directory. -/
def detect_cloned_dir (fs : String → FileStat) (args : List String) : Option String :=
  let step1 : Option String :=
    match args.getLast? with
    | some last =>
      if !last.startsWith "-" && !last.startsWith "http" &&
          !last.startsWith "git@" && !last.endsWith ".git" then
        if fs last == FileStat.dir then some last else none
      else none
    | none => none
  match step1 with
  | some p => some p
  | none => findUrlDir fs args.reverse

/-- Outcome of one `gix` invocation: `exit c` is the final process exit code
(`Ok(())` from `handle_git_command` makes `main` exit `0`;
`std::process::exit` carries the delegated code), `error` is a propagated
`anyhow` error, which `main` reports and turns into a generic non-zero exit. -/
inductive CmdResult where
  | exit (code : Nat)
  | error (msg : String)
deriving DecidableEq

/-- The process exit code an outcome produces. -/
def exit_code : CmdResult → Nat
  | CmdResult.exit c => c
  | CmdResult.error _ => 1

/-- The delegated invocation built for an intercepted command: the two
one-shot identity overrides followed by the original arguments. -/
def delegatedArgs (profile : Profile) (args : List String) : List String :=
  ["-c", "user.name=" ++ profile.name, "-c", "user.email=" ++ profile.email] ++ args

/-- The `GIT_SSH_COMMAND` override the delegated invocation receives. -/
def sshEnvOf (profile : Profile) : Option String :=
  match profile.auth with
  | AuthMethod.SSH key_path => some (sshCommandFor key_path)
  | AuthMethod.Token _ => none

/-- The profile-obtaining block of `handle_git_command` (src/git.rs, the
`let profile = match current_profile` expression, lines 223-268): a
resolved profile is used directly; otherwise one is selected interactively,
with the persistence offer shown when inside a working tree and not
cloning (an accepted offer applies the profile to the repository). -/
def obtain_profile (env : Env) (config : Config) (is_clone : Bool) :
    List Event × Except String Profile :=
  let d := detect_profile env config
  match d.2 with
  | some p => (d.1, Except.ok p)
  | none =>
    match select_profile env.selectInteract config with
    | none => (d.1, Except.error "No profile available")
    | some p =>
      let tr1 := d.1 ++ [Event.promptSelect, revParseSpawn]
      if env.insideRepo && !is_clone then
        match env.confirmPersist with
        | none => (tr1 ++ [Event.promptPersist], Except.error "prompt interaction failed")
        | some b =>
          if b then
            let a := apply_local_config env p
            if a.2 then (tr1 ++ [Event.promptPersist] ++ a.1, Except.ok p)
            else (tr1 ++ [Event.promptPersist] ++ a.1,
              Except.error "failed to save local profile selection")
          else (tr1 ++ [Event.promptPersist], Except.ok p)
      else (tr1, Except.ok p)

/-- Interception logic of `handle_git_command` (src/git.rs, the part after
the pass-through check): detect or interactively select a profile, possibly
offer to persist it, log usage, inject authentication, delegate, and run the
post-clone binding. -/
def intercept (env : Env) (config : Config) (args : List String) :
    List Event × CmdResult :=
  let is_clone := args.head? == some "clone"
  match obtain_profile env config is_clone with
  | (tr, Except.error e) => (tr, CmdResult.error e)
  | (tr, Except.ok profile) =>
    let trL := tr ++ [Event.logWrite profile.profile_name args]
    if !env.logOk then (trL, CmdResult.error "Failed to write usage log")
    else
      let authEvents : List Event :=
        match profile.auth with
        | AuthMethod.SSH _ => []
        | AuthMethod.Token token => inject_token_credential env profile.name token
      let trD := trL ++ authEvents ++
        [Event.spawn (sshEnvOf profile) none (delegatedArgs profile args)]
      if env.delegatedStatus != 0 then (trD, CmdResult.exit env.delegatedStatus)
      else if is_clone then
        match detect_cloned_dir env.fileStat args with
        | none => (trD, CmdResult.exit 0)
        | some dir =>
          let trS := trD ++ [Event.saveLocalSelection (some dir) profile.profile_name]
          if env.saveCloneOk then
            (trS ++ apply_local_config_to_dir profile dir, CmdResult.exit 0)
          else (trS, CmdResult.exit 0)
      else (trD, CmdResult.exit 0)

/-- Git command passthrough with profile injection (src/git.rs,
`handle_git_command`): when the first argument is not an intercepted
command, the original argument vector is delegated untouched and its exit
status propagated; otherwise the interception logic runs. -/
def handle_git_command (env : Env) (config : Config) (args : List String) :
    List Event × CmdResult :=
  let passThrough :=
    match args.head? with
    | some cmd => !(config.intercepted_commands.contains cmd)
    | none => false
  if passThrough then
    ([Event.spawn none none args], CmdResult.exit env.delegatedStatus)
  else
    intercept env config args

/-! ## Configuration layer (src/config.rs) -/

/-- JSON values, as far as the two config files need them. -/
inductive Json where
  | null
  | str (s : String)
  | arr (xs : List Json)
  | obj (fields : List (String × Json))

/-- Ordered field lookup in a JSON object body. -/
def lookupField : List (String × Json) → String → Option Json
  | [], _ => none
  | (k, v) :: rest, name => if k == name then some v else lookupField rest name

/-- Field lookup on a JSON value. -/
def Json.getField (j : Json) (name : String) : Option Json :=
  match j with
  | Json.obj fields => lookupField fields name
  | _ => none

/-- Serde serialization of `AuthMethod` (externally tagged enum). -/
def encodeAuth : AuthMethod → Json
  | AuthMethod.SSH key_path => Json.obj [("SSH", Json.obj [("key_path", Json.str key_path)])]
  | AuthMethod.Token token => Json.obj [("Token", Json.obj [("token", Json.str token)])]

/-- Serde serialization of `Profile` (fields in declaration order). -/
def encodeProfile (p : Profile) : Json :=
  Json.obj [("name", Json.str p.name), ("email", Json.str p.email),
    ("auth", encodeAuth p.auth), ("profile_name", Json.str p.profile_name)]

/-- Serde serialization of `Config`. -/
def encodeConfig (c : Config) : Json :=
  Json.obj [("profiles", Json.arr (c.profiles.map encodeProfile)),
    ("intercepted_commands", Json.arr (c.intercepted_commands.map Json.str)),
    ("default_profile",
      match c.default_profile with
      | some s => Json.str s
      | none => Json.null)]

/-- Serde serialization of `LocalConfig`. -/
def encodeLocalConfig (lc : LocalConfig) : Json :=
  Json.obj [("selected_profile",
    match lc.selected_profile with
    | some s => Json.str s
    | none => Json.null)]

/-- Deserialize a JSON string. -/
def decodeStr : Json → Option String
  | Json.str s => some s
  | _ => none

/-- Deserialize `AuthMethod`. -/
def decodeAuth (j : Json) : Option AuthMethod :=
  match j.getField "SSH" with
  | some inner => ((inner.getField "key_path").bind decodeStr).map AuthMethod.SSH
  | none =>
    match j.getField "Token" with
    | some inner => ((inner.getField "token").bind decodeStr).map AuthMethod.Token
    | none => none

/-- Deserialize `Profile`. -/
def decodeProfile (j : Json) : Option Profile :=
  match (j.getField "name").bind decodeStr with
  | none => none
  | some name =>
    match (j.getField "email").bind decodeStr with
    | none => none
    | some email =>
      match (j.getField "auth").bind decodeAuth with
      | none => none
      | some auth =>
        match (j.getField "profile_name").bind decodeStr with
        | none => none
        | some profile_name => some ⟨name, email, auth, profile_name⟩

/-- Deserialize each element of a JSON sequence. -/
def decodeArr (dec : Json → Option α) : List Json → Option (List α)
  | [] => some []
  | j :: rest =>
    match dec j with
    | none => none
    | some x => (decodeArr dec rest).map (fun xs => x :: xs)

/-- Deserialize `Config`: `intercepted_commands` carries a
`serde(default)` so a missing field falls back to the default set, and the
`Option` field tolerates both `null` and absence. -/
def decodeConfig (j : Json) : Option Config :=
  match j.getField "profiles" with
  | some (Json.arr pjs) =>
    match decodeArr decodeProfile pjs with
    | none => none
    | some profiles =>
      let interceptedOpt : Option (List String) :=
        match j.getField "intercepted_commands" with
        | none => some default_intercepted_commands
        | some (Json.arr xs) => decodeArr decodeStr xs
        | some _ => none
      match interceptedOpt with
      | none => none
      | some intercepted =>
        match j.getField "default_profile" with
        | some (Json.str s) => some ⟨profiles, intercepted, some s⟩
        | some Json.null => some ⟨profiles, intercepted, none⟩
        | none => some ⟨profiles, intercepted, none⟩
        | some _ => none
  | _ => none

/-- Loading the global config (src/config.rs, `load_config`), given the
parsed content of the config file (`none` = file absent): a missing file
yields the defaults, unparsable content is an error, and an empty
`intercepted_commands` list is replaced by the default set. -/
def load_config_from (content : Option Json) : Except String Config :=
  match content with
  | none =>
    Except.ok ⟨[], default_intercepted_commands, none⟩
  | some j =>
    match decodeConfig j with
    | none => Except.error "Failed to parse config file. It may be corrupted."
    | some config =>
      if config.intercepted_commands.isEmpty then
        Except.ok { config with intercepted_commands := default_intercepted_commands }
      else Except.ok config

/-- File-system operations performed by the config savers.  `rename` is
never emitted by the source; it is part of the vocabulary so that
write-to-temp-then-atomic-replace semantics can be stated. -/
inductive FsOp where
  | mkdirAll (path : String)
  | create (path : String)
  | writeAll (path : String) (content : Json)
  | setPerms (path : String) (mode : Nat)
  | rename (src dst : String)

/-- Whether an operation is a rename. -/
def FsOp.isRename : FsOp → Bool
  | FsOp.rename _ _ => true
  | _ => false

/-- The global config path `~/.gix/config.json` for a given home directory
(src/config.rs, `get_global_config_path`). -/
def globalConfigPath (home : String) : String :=
  home ++ "/.gix/config.json"

/-- Saving the global config (src/config.rs, `save_config`): create the
parent directory, `File::create` the final path (which truncates any
existing file in place), stream the JSON into it, then restrict the
permissions to owner read/write. -/
def save_config_ops (home : String) (config : Config) : List FsOp :=
  [FsOp.mkdirAll (home ++ "/.gix"),
   FsOp.create (globalConfigPath home),
   FsOp.writeAll (globalConfigPath home) (encodeConfig config),
   FsOp.setPerms (globalConfigPath home) 0o600]

/-- Saving a local profile selection (src/config.rs,
`save_local_profile_selection_to_dir`). -/
def save_local_ops (dir : String) (profile_name : String) : List FsOp :=
  [FsOp.mkdirAll (dir ++ "/.gix"),
   FsOp.create (dir ++ "/.gix/config.json"),
   FsOp.writeAll (dir ++ "/.gix/config.json")
     (encodeLocalConfig ⟨some profile_name⟩)]

/-- What a path holds while a write sequence runs: a complete JSON document,
or a file that was created/truncated whose content has not been written yet. -/
inductive FileContent where
  | content (j : Json)
  | truncated

/-- One file-system step: `create` truncates, `writeAll` fills in the
document, `rename` moves content, the rest leave contents alone. -/
def runFsOp (st : String → Option FileContent) (op : FsOp) :
    String → Option FileContent :=
  match op with
  | FsOp.mkdirAll _ => st
  | FsOp.create p => fun q => if q == p then some FileContent.truncated else st q
  | FsOp.writeAll p j => fun q => if q == p then some (FileContent.content j) else st q
  | FsOp.setPerms _ _ => st
  | FsOp.rename src dst =>
    fun q => if q == dst then st src else if q == src then none else st q

/-- Run a sequence of file-system operations. -/
def runFsOps (ops : List FsOp) (st : String → Option FileContent) :
    String → Option FileContent :=
  ops.foldl runFsOp st

/-- The relative local config path (src/config.rs, `get_local_config_path`):
a path relative to the process working directory, not to any repository
root. -/
def get_local_config_path : String :=
  ".gix/config.json"

/-- Resolve a relative path against the process working directory. -/
def resolveRel (cwd rel : String) : String :=
  cwd ++ "/" ++ rel

/-- Loading the local config (src/config.rs, `load_local_config`): read the
relative `.gix/config.json`, which the OS resolves against the process
working directory; `fs` maps absolute paths to parsed contents (`none` for
missing or unparsable files, both of which the source maps to `None`). -/
def load_local_config (fs : String → Option LocalConfig) (cwd : String) :
    Option LocalConfig :=
  fs (resolveRel cwd get_local_config_path)

/-! ## Profile-editing operations (src/profile.rs) -/

/-- The profile names of a config, in order. -/
def profileNames (config : Config) : List String :=
  config.profiles.map (fun p => p.profile_name)

/-- The `profile add` flow (src/profile.rs, `ProfileAction::Add`), reduced
to its persistent effect: reject a duplicate name, validate, then append and
save.  The `Ok` value is the config passed to `save_config`. -/
def addProfile (fs : String → FileStat) (config : Config) (newP : Profile) :
    Except String Config :=
  if config.profiles.any (fun p => p.profile_name == newP.profile_name) then
    Except.error ("A profile with this name already exists")
  else
    match newP.validate fs with
    | Except.error e => Except.error e
    | Except.ok _ => Except.ok { config with profiles := config.profiles ++ [newP] }

/-- The confirmed `profile delete` flow (src/profile.rs,
`ProfileAction::Delete`): retain every profile with a different name. -/
def deleteProfile (config : Config) (name : String) : Config :=
  { config with profiles := config.profiles.filter (fun p => p.profile_name != name) }

/-- Locate a profile and its index (the `iter().position` + index of the
edit flow). -/
def findWithIdx (pred : Profile → Bool) : List Profile → Option (Nat × Profile)
  | [] => none
  | p :: rest =>
    if pred p then some (0, p)
    else (findWithIdx pred rest).map (fun ip => (ip.1 + 1, ip.2))

/-- The `profile edit` flow (src/profile.rs, `ProfileAction::Edit`), reduced
to its persistent effect: find the profile, replace its fields with the
entered values (`newAuth = none` keeps the old auth), validate the edited
profile, and save.  No duplicate check is performed on the new name.
`Ok none` is the "profile not found" path, which saves nothing. -/
def editProfile (fs : String → FileStat) (config : Config) (oldName : String)
    (newProfileName newName newEmail : String) (newAuth : Option AuthMethod) :
    Except String (Option Config) :=
  match findWithIdx (fun p => p.profile_name == oldName) config.profiles with
  | none => Except.ok none
  | some (idx, p) =>
    let p' : Profile :=
      { name := newName, email := newEmail, auth := newAuth.getD p.auth,
        profile_name := newProfileName }
    match p'.validate fs with
    | Except.error e => Except.error e
    | Except.ok _ =>
      Except.ok (some { config with profiles := config.profiles.set idx p' })

/-- The `gix set <name>` flow (src/profile.rs, `handle_set_command` with an
explicit name): with no profiles nothing is saved; an unknown name is an
error; otherwise `default_profile` is set and saved. -/
def setDefaultProfile (config : Config) (n : String) : Except String (Option Config) :=
  if config.profiles.isEmpty then Except.ok none
  else if !(config.profiles.any (fun p => p.profile_name == n)) then
    Except.error ("Profile not found")
  else Except.ok (some { config with default_profile := some n })

/-! ## Reference definitions written from the spec's words -/

/-- Reference definition following the spec (section 4.2, rule 3): the
working tree's locally configured user email, available only when the
invocation is inside a working tree, taken from a successful query with a
non-empty trimmed result. -/
def specWorkTreeEmail (env : Env) : Option String :=
  if env.insideRepo then
    match env.configEmailOutput with
    | some (true, out) =>
      let e := strTrim out
      if strIsEmpty e then none else some e
    | _ => none
  else none

/-- Reference definition following the spec (section 4.2): the strict
precedence chain — local binding, then global default, then working-tree
email match — where a reference to an unknown profile name is no match and
the chain yields `none` when nothing matches. -/
def resolveSpecChain (env : Env) (config : Config) : Option Profile :=
  match (env.localConfig.bind (fun lc => lc.selected_profile)).bind
      (fun n => config.profiles.find? (fun p => p.profile_name == n)) with
  | some p => some p
  | none =>
    match config.default_profile.bind
        (fun n => config.profiles.find? (fun p => p.profile_name == n)) with
    | some p => some p
    | none =>
      (specWorkTreeEmail env).bind
        (fun e => config.profiles.find? (fun p => p.email == e))

/-- The email condition exactly as claim C8 states it: some `@` is followed,
further right, by a `.`. -/
def hasDotAfterAt : List Char → Bool
  | [] => false
  | c :: rest => (c == '@' && rest.contains '.') || hasDotAfterAt rest

/-! ## Concrete fixtures for witnesses and counterexamples -/

/-- A quiescent environment: no local config, outside any working tree,
every interaction failing, writes succeeding, delegation succeeding. -/
def baseEnv : Env where
  localConfig := none
  insideRepo := false
  configEmailOutput := none
  selectInteract := none
  confirmPersist := none
  saveLocalOk := true
  logOk := true
  remoteOriginUrl := none
  delegatedStatus := 0
  fileStat := fun _ => FileStat.missing
  saveCloneOk := true

/-- A token-authenticated sample profile. -/
def workProfile : Profile :=
  ⟨"Alice Work", "alice@work.com", AuthMethod.Token "tok-123", "work"⟩

/-- An SSH-authenticated sample profile. -/
def homeProfile : Profile :=
  ⟨"Alice Home", "alice@home.net", AuthMethod.SSH "/home/alice/.ssh/id_home", "home"⟩

/-- The config `load_config` produces when no config file exists. -/
def emptyConfig : Config :=
  ⟨[], default_intercepted_commands, none⟩

/-- A config whose default profile is `work`. -/
def cfgWork : Config :=
  ⟨[workProfile], default_intercepted_commands, some "work"⟩

/-- A one-profile config with no default. -/
def cfgWorkNoDefault : Config :=
  ⟨[workProfile], default_intercepted_commands, none⟩

/-- First profile of the two-profile fixture config. -/
def profileA : Profile := ⟨"Alice", "a@x.com", AuthMethod.Token "t1", "a"⟩

/-- Second profile of the two-profile fixture config. -/
def profileB : Profile := ⟨"Bob", "b@x.com", AuthMethod.Token "t2", "b"⟩

/-- A config holding `profileA` and `profileB`, names distinct. -/
def cfgAB : Config := ⟨[profileA, profileB], default_intercepted_commands, none⟩

/-! ## Claim theorems -/

/-- Claim C1: an invocation whose first argument token is not among the
loaded config's `intercepted_commands` delegates the original argument
vector untouched — a single subprocess with exactly `args`, no environment
override, no identity `-c` flags, no profile resolution or any other event —
and the process exit status is the delegated tool's status. -/
theorem passthrough_transparent (env : Env) (config : Config)
    (args : List String) (cmd : String)
    (hfirst : args.head? = some cmd)
    (hni : config.intercepted_commands.contains cmd = false) :
    handle_git_command env config args =
      ([Event.spawn none none args], CmdResult.exit env.delegatedStatus) := by
  simp only [handle_git_command, hfirst, hni, Bool.not_false, if_true]

/-- Witness for C1 at a concrete non-intercepted invocation. -/
theorem passthrough_transparent_witness :
    handle_git_command { baseEnv with delegatedStatus := 7 } cfgWork
        ["status", "--short"] =
      ([Event.spawn none none ["status", "--short"]], CmdResult.exit 7) :=
  passthrough_transparent { baseEnv with delegatedStatus := 7 } cfgWork
    ["status", "--short"] "status" rfl (by decide)

/-- Claim C2: profile resolution follows the spec's strict precedence chain
with first match winning — local binding, then global default, then exact
working-tree email match — with unknown references falling through and
`none` outside a working tree or when nothing matches. -/
theorem detect_profile_matches_resolver_spec (env : Env) (config : Config) :
    (detect_profile env config).2 = resolveSpecChain env config := by
  unfold detect_profile resolveSpecChain specWorkTreeEmail
  cases h1 : (env.localConfig.bind (fun lc => lc.selected_profile)).bind
      (fun n => config.profiles.find? (fun p => p.profile_name == n)) with
  | some p => simp [h1]
  | none =>
    cases h2 : config.default_profile.bind
        (fun n => config.profiles.find? (fun p => p.profile_name == n)) with
    | some p => simp [h1, h2]
    | none =>
      cases hr : env.insideRepo with
      | false => simp [h1, h2, hr]
      | true =>
        cases h3 : env.configEmailOutput with
        | none => simp [h1, h2, hr, h3]
        | some pr =>
          obtain ⟨succ, out⟩ := pr
          cases succ with
          | false => simp [h1, h2, hr, h3]
          | true =>
            by_cases h4 : strIsEmpty (strTrim out) <;> simp [h1, h2, hr, h3, h4]

/-- The only subprocesses `detect_profile` ever starts are its two read-only
resolver queries. -/
theorem detect_profile_trace_subset (env : Env) (config : Config) :
    ∀ e ∈ (detect_profile env config).1, e = revParseSpawn ∨ e = configEmailSpawn := by
  unfold detect_profile
  cases h1 : (env.localConfig.bind (fun lc => lc.selected_profile)).bind
      (fun n => config.profiles.find? (fun p => p.profile_name == n)) with
  | some p => simp [h1]
  | none =>
    cases h2 : config.default_profile.bind
        (fun n => config.profiles.find? (fun p => p.profile_name == n)) with
    | some p => simp [h1, h2]
    | none =>
      cases hr : env.insideRepo with
      | false => simp [h1, h2, hr]
      | true =>
        cases h3 : env.configEmailOutput with
        | none => simp [h1, h2, hr, h3]
        | some pr =>
          obtain ⟨succ, out⟩ := pr
          cases succ with
          | false => simp [h1, h2, hr, h3]
          | true =>
            by_cases h4 : strIsEmpty (strTrim out) <;> simp [h1, h2, hr, h3, h4]

/-- With no profiles configured, detection finds nothing. -/
theorem detect_profile_nil_profiles (env : Env) (config : Config)
    (h : config.profiles = []) :
    (detect_profile env config).2 = none := by
  unfold detect_profile
  rw [h]
  cases env.localConfig.bind (fun lc => lc.selected_profile) <;>
    cases config.default_profile <;>
      cases hr : env.insideRepo <;>
        rcases h3 : env.configEmailOutput with _ | ⟨succ, out⟩ <;>
          try cases succ
  all_goals try by_cases h4 : strIsEmpty (strTrim out)
  all_goals simp_all [List.find?_nil]

/-- Claim C3 (amended): an intercepted invocation with an empty profile list
fails with the no-profiles condition and a non-zero exit, and the delegated
invocation of the underlying tool never starts — the only subprocesses are
the resolver's two read-only queries. -/
theorem intercepted_no_profiles_fails_without_delegation
    (env : Env) (config : Config) (args : List String) (cmd : String)
    (hfirst : args.head? = some cmd)
    (hint : config.intercepted_commands.contains cmd = true)
    (hempty : config.profiles = []) :
    (handle_git_command env config args).2 = CmdResult.error "No profile available" ∧
    exit_code (handle_git_command env config args).2 = 1 ∧
    ∀ e ∈ (handle_git_command env config args).1,
      e = revParseSpawn ∨ e = configEmailSpawn := by
  have hd2 := detect_profile_nil_profiles env config hempty
  have hh : handle_git_command env config args =
      ((detect_profile env config).1, CmdResult.error "No profile available") := by
    unfold handle_git_command intercept obtain_profile
    simp only [hfirst, hint, Bool.not_true, if_false, hd2, select_profile, hempty,
      List.isEmpty_nil, if_true]
    simp
  refine ⟨by rw [hh], by rw [hh]; rfl, ?_⟩
  rw [hh]
  exact detect_profile_trace_subset env config

/-- Witness for the amended C3 at a concrete empty config. -/
theorem intercepted_no_profiles_fails_witness :
    (handle_git_command baseEnv emptyConfig ["push"]).2 =
      CmdResult.error "No profile available" ∧
    exit_code (handle_git_command baseEnv emptyConfig ["push"]).2 = 1 ∧
    ∀ e ∈ (handle_git_command baseEnv emptyConfig ["push"]).1,
      e = revParseSpawn ∨ e = configEmailSpawn :=
  intercepted_no_profiles_fails_without_delegation baseEnv emptyConfig
    ["push"] "push" rfl (by decide) rfl

/-- Counterexample to claim C3 as stated: with an empty profile list and an
intercepted `push` the command does fail before delegation, yet a subprocess
of the underlying tool is started all the same — the resolver's
`git rev-parse --is-inside-work-tree` query appears in the trace. -/
theorem no_profiles_push_still_spawns_query :
    handle_git_command baseEnv emptyConfig ["push"] =
      ([Event.spawn none none ["rev-parse", "--is-inside-work-tree"]],
        CmdResult.error "No profile available") := rfl

/-- Every subprocess started while applying a profile locally is a
`git config` invocation. -/
theorem apply_local_config_spawn_heads (env : Env) (p : Profile) :
    ∀ sshEnv cwd as, Event.spawn sshEnv cwd as ∈ (apply_local_config env p).1 →
      as.head? = some "config" := by
  intro sshEnv cwd as hmem
  unfold apply_local_config at hmem
  cases hs : env.saveLocalOk with
  | false => simp [hs] at hmem
  | true =>
    cases hauth : p.auth with
    | SSH k => simp [hs, hauth] at hmem; rcases hmem with ⟨_, _, rfl⟩ | ⟨_, _, rfl⟩ | ⟨_, _, rfl⟩ <;> rfl
    | Token t => simp [hs, hauth] at hmem; rcases hmem with ⟨_, _, rfl⟩ | ⟨_, _, rfl⟩ | ⟨_, _, rfl⟩ <;> rfl

/-- Every subprocess started while obtaining a profile is a read-only
resolver query (`rev-parse`, `config --local user.email`) or a local
`git config` write of the persistence step. -/
theorem obtain_profile_spawn_heads (env : Env) (config : Config) (is_clone : Bool) :
    ∀ sshEnv cwd as, Event.spawn sshEnv cwd as ∈ (obtain_profile env config is_clone).1 →
      as.head? = some "rev-parse" ∨ as.head? = some "config" := by
  have hd : ∀ sshEnv cwd as, Event.spawn sshEnv cwd as ∈ (detect_profile env config).1 →
      as.head? = some "rev-parse" ∨ as.head? = some "config" := by
    intro sshEnv cwd as hmem
    rcases detect_profile_trace_subset env config _ hmem with h | h <;>
      simp [revParseSpawn, configEmailSpawn] at h <;>
        rcases h with ⟨_, _, rfl⟩
    · left; rfl
    · right; rfl
  intro sshEnv cwd as hmem
  unfold obtain_profile at hmem
  cases h1 : (detect_profile env config).2 with
  | some p =>
    simp only [h1] at hmem
    exact hd sshEnv cwd as hmem
  | none =>
    simp only [h1] at hmem
    cases h2 : select_profile env.selectInteract config with
    | none =>
      simp only [h2] at hmem
      exact hd sshEnv cwd as hmem
    | some p =>
      simp only [h2] at hmem
      have hrev : ∀ h : Event.spawn sshEnv cwd as = revParseSpawn,
          as.head? = some "rev-parse" ∨ as.head? = some "config" := by
        intro h
        simp [revParseSpawn] at h
        rcases h with ⟨_, _, rfl⟩
        left; rfl
      by_cases hc : (env.insideRepo && !is_clone) = true
      · simp only [hc, if_true] at hmem
        cases h3 : env.confirmPersist with
        | none =>
          simp [h3, List.mem_append] at hmem
          rcases hmem with hmem | hmem
          · exact hd sshEnv cwd as hmem
          · exact hrev hmem
        | some b =>
          cases b with
          | false =>
            simp [h3, List.mem_append] at hmem
            rcases hmem with hmem | hmem
            · exact hd sshEnv cwd as hmem
            · exact hrev hmem
          | true =>
            by_cases ha : (apply_local_config env p).2 = true <;>
              simp [h3, ha, List.mem_append] at hmem <;>
                rcases hmem with hmem | hmem | hmem <;>
                  first
                  | exact hd sshEnv cwd as hmem
                  | exact hrev hmem
                  | exact Or.inr (apply_local_config_spawn_heads env p sshEnv cwd as hmem)
      · simp [hc, List.mem_append] at hmem
        rcases hmem with hmem | hmem
        · exact hd sshEnv cwd as hmem
        · exact hrev hmem

/-- Whenever a profile is resolved, or selection succeeds and the
persistence step does not itself fail, the obtaining block yields that
profile. -/
theorem obtain_profile_ok (env : Env) (config : Config) (is_clone : Bool) (p : Profile)
    (hobt : (detect_profile env config).2 = some p ∨
      ((detect_profile env config).2 = none ∧
       select_profile env.selectInteract config = some p ∧
       (env.insideRepo = false ∨ is_clone = true ∨ env.confirmPersist = some false ∨
        (env.confirmPersist = some true ∧ env.saveLocalOk = true)))) :
    (obtain_profile env config is_clone).2 = Except.ok p := by
  unfold obtain_profile
  rcases hobt with h | ⟨h0, h1, h2⟩
  · simp [h]
  · rcases h2 with h2 | h2 | h2 | ⟨h2, h3⟩
    · simp [h0, h1, h2]
    · simp [h0, h1, h2]
    · by_cases hc : (env.insideRepo && !is_clone) = true
      · simp [h0, h1, hc, h2]
      · simp [h0, h1, hc]
    · by_cases hc : (env.insideRepo && !is_clone) = true
      · have ha : (apply_local_config env p).2 = true := by
          unfold apply_local_config
          cases hauth : p.auth <;> simp [h3, hauth]
        simp [h0, h1, hc, h2, ha]
      · simp [h0, h1, hc]

/-- Claim C4 (amended): whenever an intercepted invocation has obtained a
profile — resolved by the Resolver, or selected interactively with the
persistence step not itself failing — a failure to write the audit-log
entry aborts the command with an error and a non-zero exit, and the
delegated invocation of the underlying tool never starts: every tool
subprocess in the trace is a read-only resolver query or a local
`git config` write of the persistence step. -/
theorem log_failure_aborts (env : Env) (config : Config) (args : List String)
    (cmd : String) (p : Profile)
    (hfirst : args.head? = some cmd)
    (hint : config.intercepted_commands.contains cmd = true)
    (hlog : env.logOk = false)
    (hobt : (detect_profile env config).2 = some p ∨
      ((detect_profile env config).2 = none ∧
       select_profile env.selectInteract config = some p ∧
       (env.insideRepo = false ∨ cmd = "clone" ∨ env.confirmPersist = some false ∨
        (env.confirmPersist = some true ∧ env.saveLocalOk = true)))) :
    (handle_git_command env config args).2 =
      CmdResult.error "Failed to write usage log" ∧
    exit_code (handle_git_command env config args).2 = 1 ∧
    ∀ sshEnv cwd as, Event.spawn sshEnv cwd as ∈ (handle_git_command env config args).1 →
      as.head? = some "rev-parse" ∨ as.head? = some "config" := by
  have hobt' : (detect_profile env config).2 = some p ∨
      ((detect_profile env config).2 = none ∧
       select_profile env.selectInteract config = some p ∧
       (env.insideRepo = false ∨ (args.head? == some "clone") = true ∨
        env.confirmPersist = some false ∨
        (env.confirmPersist = some true ∧ env.saveLocalOk = true))) := by
    rcases hobt with h | ⟨h0, h1, h2⟩
    · exact Or.inl h
    · refine Or.inr ⟨h0, h1, ?_⟩
      rcases h2 with h | h | h | h
      · exact Or.inl h
      · refine Or.inr (Or.inl ?_)
        rw [hfirst, h]
        rfl
      · exact Or.inr (Or.inr (Or.inl h))
      · exact Or.inr (Or.inr (Or.inr h))
  have hok := obtain_profile_ok env config (args.head? == some "clone") p hobt'
  have hpass : handle_git_command env config args = intercept env config args := by
    unfold handle_git_command
    simp only [hfirst, hint, Bool.not_true, if_false]
    simp
  have hmain : handle_git_command env config args =
      ((obtain_profile env config (args.head? == some "clone")).1 ++
        [Event.logWrite p.profile_name args],
       CmdResult.error "Failed to write usage log") := by
    rw [hpass]
    unfold intercept
    rcases ho : obtain_profile env config (args.head? == some "clone") with ⟨T, res⟩
    rw [ho] at hok
    simp only at hok
    subst hok
    simp [ho, hlog]
  refine ⟨by rw [hmain], by rw [hmain]; rfl, ?_⟩
  intro sshEnv cwd as hmem
  rw [hmain] at hmem
  rcases List.mem_append.mp hmem with hmem | hmem
  · exact obtain_profile_spawn_heads env config _ sshEnv cwd as hmem
  · simp at hmem

/-- A base environment whose usage-log write fails. -/
def envLogFail : Env := { baseEnv with logOk := false }

/-- An environment whose selection prompt runs (inside a repo, persistence
accepted and applied) but whose usage-log write fails. -/
def envSelLogFail : Env :=
  { baseEnv with insideRepo := true, confirmPersist := some true, logOk := false }

/-- Witness for the amended C4, exercising the interactively selected path:
a profile obtained via selection with accepted persistence, then a failing
log write. -/
theorem log_failure_aborts_witness :
    (handle_git_command envSelLogFail cfgAB ["push"]).2 =
      CmdResult.error "Failed to write usage log" ∧
    exit_code (handle_git_command envSelLogFail cfgAB ["push"]).2 = 1 ∧
    ∀ sshEnv cwd as, Event.spawn sshEnv cwd as ∈
        (handle_git_command envSelLogFail cfgAB ["push"]).1 →
      as.head? = some "rev-parse" ∨ as.head? = some "config" :=
  log_failure_aborts envSelLogFail cfgAB ["push"] "push" profileA rfl (by decide) rfl
    (Or.inr ⟨rfl, rfl, Or.inr (Or.inr (Or.inr ⟨rfl, rfl⟩))⟩)

/-- Counterexample to claim C4 as stated: with a resolved default profile
and a failing log write, `handle_git_command` aborts with an error and the
trace contains no delegated subprocess at all, so the log failure did change
the outcome and delegation did not proceed. -/
theorem log_failure_blocks_delegation :
    handle_git_command envLogFail cfgWork ["push"] =
      ([Event.logWrite "work" ["push"]],
        CmdResult.error "Failed to write usage log") := rfl

/-- Claim C5 (amended): both config savers write directly to the final path
— the file is created (truncating any previous content) at the final path
itself and the JSON is then written in place; no rename is ever performed,
so after the first two operations of either save an interruption leaves the
final path truncated rather than holding its prior contents. -/
theorem config_saves_write_final_path_directly (home dir pname : String)
    (config : Config) (st : String → Option FileContent) :
    ((save_config_ops home config).all (fun op => !op.isRename) = true ∧
      FsOp.create (globalConfigPath home) ∈ save_config_ops home config ∧
      runFsOps ((save_config_ops home config).take 2) st (globalConfigPath home) =
        some FileContent.truncated) ∧
    ((save_local_ops dir pname).all (fun op => !op.isRename) = true ∧
      FsOp.create (dir ++ "/.gix/config.json") ∈ save_local_ops dir pname ∧
      runFsOps ((save_local_ops dir pname).take 2) st (dir ++ "/.gix/config.json") =
        some FileContent.truncated) := by
  refine ⟨⟨?_, ?_, ?_⟩, ⟨?_, ?_, ?_⟩⟩ <;>
    simp [save_config_ops, save_local_ops, FsOp.isRename, runFsOps, runFsOp,
      globalConfigPath]

/-- The prior state of the file system in the C5 counterexample: the global
config file holds an intact JSON document. -/
def priorFs : String → Option FileContent :=
  fun q =>
    if q == globalConfigPath "/home/u" then
      some (FileContent.content (Json.str "prior-config"))
    else none

/-- Counterexample to claim C5 as stated: `save_config` creates the final
path directly (no temp file, no rename anywhere in the sequence), so midway
through the save the final path holds truncated content instead of its
prior, intact document. -/
theorem save_config_truncates_in_place :
    runFsOps ((save_config_ops "/home/u" emptyConfig).take 2) priorFs
        (globalConfigPath "/home/u") = some FileContent.truncated ∧
    priorFs (globalConfigPath "/home/u") =
      some (FileContent.content (Json.str "prior-config")) ∧
    (some FileContent.truncated ≠
      some (FileContent.content (Json.str "prior-config"))) ∧
    (save_config_ops "/home/u" emptyConfig).all (fun op => !op.isRename) = true := by
  refine ⟨rfl, rfl, fun h => ?_, rfl⟩
  injection h with h'
  exact FileContent.noConfusion h'

/-- Claim C6 (amended): pairwise-distinct profile names are preserved by
every add, delete and default-setting operation that reaches `save_config`;
the edit operation is excluded because it performs no duplicate check when
renaming. -/
theorem persist_ops_preserve_unique_names :
    (∀ (fs : String → FileStat) (config : Config) (newP : Profile) (c : Config),
      (profileNames config).Nodup → addProfile fs config newP = Except.ok c →
      (profileNames c).Nodup) ∧
    (∀ (config : Config) (name : String),
      (profileNames config).Nodup → (profileNames (deleteProfile config name)).Nodup) ∧
    (∀ (config : Config) (n : String) (c : Config),
      (profileNames config).Nodup → setDefaultProfile config n = Except.ok (some c) →
      (profileNames c).Nodup) := by
  refine ⟨?_, ?_, ?_⟩
  · intro fs config newP c hnd hadd
    unfold addProfile at hadd
    by_cases hdup : config.profiles.any (fun p => p.profile_name == newP.profile_name)
    · simp [hdup] at hadd
    · rw [if_neg hdup] at hadd
      cases hval : newP.validate fs with
      | error e => rw [hval] at hadd; cases hadd
      | ok u =>
        rw [hval] at hadd
        injection hadd with hc
        subst hc
        have hnotin : newP.profile_name ∉ profileNames config := by
          intro hmem
          apply hdup
          rw [List.any_eq_true]
          rcases List.mem_map.mp hmem with ⟨p, hp, hpe⟩
          exact ⟨p, hp, by simp [hpe]⟩
        simp only [profileNames, List.map_append, List.map_cons, List.map_nil]
        rw [List.nodup_append]
        refine ⟨hnd, List.nodup_singleton _, ?_⟩
        intro a ha hb
        simp only [List.mem_singleton] at hb
        subst hb
        exact hnotin ha
  · intro config name hnd
    have hsub : List.Sublist
        ((deleteProfile config name).profiles.map (fun p => p.profile_name))
        (config.profiles.map (fun p => p.profile_name)) :=
      List.Sublist.map _ (List.filter_sublist _)
    exact List.Nodup.sublist hsub hnd
  · intro config n c hnd hset
    unfold setDefaultProfile at hset
    by_cases h0 : config.profiles.isEmpty
    · simp [h0] at hset
    · rw [if_neg h0] at hset
      by_cases h1 : config.profiles.any (fun p => p.profile_name == n)
      · rw [if_neg (by simp [h1])] at hset
        injection hset with hc
        injection hc with hc'
        subst hc'
        exact hnd
      · simp [h1] at hset

/-- The config the edit flow persists after renaming `a` to `b`. -/
def cfgDup : Config :=
  ⟨[⟨"Alice", "a@x.com", AuthMethod.Token "t1", "b"⟩, profileB],
    default_intercepted_commands, none⟩

/-- Witness for the amended C6: deleting from a duplicate-free config keeps
the names duplicate-free. -/
theorem persist_ops_preserve_unique_names_witness :
    (profileNames (deleteProfile cfgAB "a")).Nodup :=
  persist_ops_preserve_unique_names.2.1 cfgAB "a" (by decide)

/-- Counterexample to claim C6 as stated: starting from pairwise-distinct
names `a`, `b`, editing profile `a` and renaming it to `b` passes
validation and persists a profile list whose names are `b`, `b` — the
uniqueness invariant is not preserved by the edit operation. -/
theorem edit_rename_creates_duplicate :
    (profileNames cfgAB).Nodup ∧
    editProfile (fun _ => FileStat.missing) cfgAB "a" "b" "Alice" "a@x.com" none =
      Except.ok (some cfgDup) ∧
    profileNames cfgDup = ["b", "b"] ∧
    ¬ (profileNames cfgDup).Nodup := by
  refine ⟨by decide, rfl, rfl, by decide⟩

/-- The file system of the C7 counterexample: a local config binding profile
`work` exists exactly at the repository root `/repo`. -/
def fsRepoBound : String → Option LocalConfig :=
  fun q =>
    if q == "/repo/.gix/config.json" then some ⟨some "work"⟩ else none

/-- An invocation from the subdirectory `/repo/sub` of the working tree
rooted at `/repo`, whose own git email matches no profile. -/
def envSubdir : Env :=
  { baseEnv with
    localConfig := load_local_config fsRepoBound "/repo/sub",
    insideRepo := true,
    configEmailOutput := some (true, "other@elsewhere.org\n") }

/-- Counterexample to claim C7 as stated: the local config is looked up
under the invoking directory, not under the repository root, so the binding
at `/repo` is not consulted when the command runs from `/repo/sub` and the
bound profile is not selected. -/
theorem root_binding_missed_from_subdirectory :
    load_local_config fsRepoBound "/repo" = some ⟨some "work"⟩ ∧
    cfgWorkNoDefault.profiles.find? (fun p => p.profile_name == "work") =
      some workProfile ∧
    load_local_config fsRepoBound "/repo/sub" = none ∧
    (detect_profile envSubdir cfgWorkNoDefault).2 = none := by
  refine ⟨rfl, rfl, rfl, rfl⟩

/-- Claim C7 (amended): resolution step 1 consults the LocalConfig stored
under the hidden subdirectory of the invoking working directory itself —
`load_local_config` reads `cwd/.gix/config.json` — and a profile bound
there is found and selected whenever it names a known profile. -/
theorem local_binding_resolved_from_cwd (fs : String → Option LocalConfig)
    (cwd : String) (env : Env) (config : Config) (name : String) (p : Profile)
    (henv : env.localConfig = load_local_config fs cwd)
    (hfs : fs (cwd ++ "/" ++ get_local_config_path) = some ⟨some name⟩)
    (hfind : config.profiles.find? (fun q => q.profile_name == name) = some p) :
    (detect_profile env config).2 = some p := by
  unfold detect_profile
  rw [henv]
  unfold load_local_config resolveRel
  rw [hfs]
  simp [hfind]

/-- Witness for the amended C7: invoked from the repository root itself, the
binding written there is selected. -/
theorem local_binding_resolved_from_cwd_witness :
    (detect_profile
      { baseEnv with localConfig := load_local_config fsRepoBound "/repo" }
      cfgWorkNoDefault).2 = some workProfile :=
  local_binding_resolved_from_cwd fsRepoBound "/repo"
    { baseEnv with localConfig := load_local_config fsRepoBound "/repo" }
    cfgWorkNoDefault "work" workProfile rfl rfl rfl

/-- Claim C8 (amended): `validate` succeeds exactly when the email contains
an `@` and a `.` anywhere (the `.` need not follow the `@`), the profile
name is non-empty and free of path separators, and an SSH key path refers
to an existing regular file; in particular it rejects `not-an-email`,
accepts `a@b.co`, rejects the name `a/b`, and rejects a missing SSH key. -/
theorem validate_characterization (fs : String → FileStat) (p : Profile) :
    p.validate fs = Except.ok () ↔
      (strContains p.email '@' = true ∧ strContains p.email '.' = true ∧
       strIsEmpty p.profile_name = false ∧
       strContains p.profile_name '/' = false ∧
       strContains p.profile_name '\\' = false ∧
       ∀ k, p.auth = AuthMethod.SSH k → fs k = FileStat.regular) := by
  unfold Profile.validate
  cases hat : strContains p.email '@' <;>
    cases hdot : strContains p.email '.' <;>
      cases hemp : strIsEmpty p.profile_name <;>
        cases hsl : strContains p.profile_name '/' <;>
          cases hbs : strContains p.profile_name '\\' <;>
            simp [hat, hdot, hemp, hsl, hbs]
  cases hauth : p.auth with
  | SSH k₀ => cases hfs : fs k₀ <;> simp [hauth, hfs]
  | Token t => simp [hauth]

/-- Witness for the amended C8: the spec's accepted vector `a@b.co` with a
clean profile name and token auth validates. -/
theorem validate_characterization_witness :
    Profile.validate (fun _ => FileStat.missing)
      ⟨"A", "a@b.co", AuthMethod.Token "t", "ab"⟩ = Except.ok () :=
  (validate_characterization (fun _ => FileStat.missing)
    ⟨"A", "a@b.co", AuthMethod.Token "t", "ab"⟩).mpr
    ⟨rfl, rfl, rfl, rfl, rfl, fun _ h => AuthMethod.noConfusion h⟩

/-- Counterexample to claim C8 as stated: the email `a.b@c` contains an `@`
and a `.`, but no `.` follows the `@`; the claim's condition rejects it,
yet `validate` accepts it — the code only checks containment. -/
theorem validate_accepts_dot_before_at :
    Profile.validate (fun _ => FileStat.missing)
      ⟨"Carol", "a.b@c", AuthMethod.Token "tc", "carol"⟩ = Except.ok () ∧
    hasDotAfterAt "a.b@c".data = false := ⟨rfl, rfl⟩

/-- Decoding inverts encoding for `AuthMethod`. -/
theorem decodeAuth_encodeAuth (a : AuthMethod) :
    decodeAuth (encodeAuth a) = some a := by
  cases a <;> rfl

/-- Decoding inverts encoding for `Profile`. -/
theorem decodeProfile_encodeProfile (p : Profile) :
    decodeProfile (encodeProfile p) = some p := by
  obtain ⟨n, e, a, pn⟩ := p
  cases a <;> rfl

/-- Decoding a sequence inverts encoding elementwise. -/
theorem decodeArr_encode {α : Type} (dec : Json → Option α) (enc : α → Json)
    (h : ∀ x, dec (enc x) = some x) (l : List α) :
    decodeArr dec (l.map enc) = some l := by
  induction l with
  | nil => rfl
  | cons x xs ih => simp [decodeArr, h, ih]

/-- Decoding inverts encoding for `Config`. -/
theorem decodeConfig_encodeConfig (c : Config) :
    decodeConfig (encodeConfig c) = some c := by
  obtain ⟨ps, ic, dp⟩ := c
  have h1 : decodeArr decodeProfile (ps.map encodeProfile) = some ps :=
    decodeArr_encode _ _ decodeProfile_encodeProfile ps
  have h2 : decodeArr decodeStr (ic.map Json.str) = some ic :=
    decodeArr_encode decodeStr Json.str (fun _ => rfl) ic
  cases dp with
  | none =>
    have g1 : Json.getField (encodeConfig ⟨ps, ic, none⟩) "profiles" =
        some (Json.arr (ps.map encodeProfile)) := rfl
    have g2 : Json.getField (encodeConfig ⟨ps, ic, none⟩) "intercepted_commands" =
        some (Json.arr (ic.map Json.str)) := rfl
    have g3 : Json.getField (encodeConfig ⟨ps, ic, none⟩) "default_profile" =
        some Json.null := rfl
    unfold decodeConfig
    rw [g1]
    simp only [h1, g2, h2, g3]
  | some s =>
    have g1 : Json.getField (encodeConfig ⟨ps, ic, some s⟩) "profiles" =
        some (Json.arr (ps.map encodeProfile)) := rfl
    have g2 : Json.getField (encodeConfig ⟨ps, ic, some s⟩) "intercepted_commands" =
        some (Json.arr (ic.map Json.str)) := rfl
    have g3 : Json.getField (encodeConfig ⟨ps, ic, some s⟩) "default_profile" =
        some (Json.str s) := rfl
    unfold decodeConfig
    rw [g1]
    simp only [h1, g2, h2, g3]

/-- Claim C9 (amended): saving a config writes exactly its serialization,
and reloading that serialization preserves the profile list (in order) and
`default_profile` always, and `intercepted_commands` whenever it is
non-empty; an empty `intercepted_commands` list is replaced by the default
set on load. -/
theorem save_load_round_trip (home : String) (cfg : Config) :
    FsOp.writeAll (globalConfigPath home) (encodeConfig cfg) ∈
      save_config_ops home cfg ∧
    load_config_from (some (encodeConfig cfg)) =
      Except.ok { cfg with intercepted_commands :=
        if cfg.intercepted_commands.isEmpty then default_intercepted_commands
        else cfg.intercepted_commands } := by
  constructor
  · simp [save_config_ops]
  · have hd := decodeConfig_encodeConfig cfg
    unfold load_config_from
    simp only [hd]
    by_cases h : cfg.intercepted_commands.isEmpty <;> simp [h]

/-- A config with an empty intercepted-command list, as `gix commands` can
persist when every command is deselected. -/
def cfgNoCommands : Config := ⟨[], [], none⟩

/-- Counterexample to claim C9 as stated: a config whose
`intercepted_commands` is empty does not round-trip — reloading its own
serialization yields the default intercepted set instead. -/
theorem round_trip_replaces_empty_intercepted :
    load_config_from (some (encodeConfig cfgNoCommands)) =
      Except.ok ⟨[], ["pull", "push", "fetch", "clone"], none⟩ ∧
    cfgNoCommands.intercepted_commands = [] ∧
    (["pull", "push", "fetch", "clone"] : List String) ≠ [] := by
  refine ⟨rfl, rfl, by decide⟩

/-- Claim C10: with at least one profile configured, a failed or cancelled
selection prompt silently yields the first profile, and the interceptor
proceeds with it as if deliberately chosen — the persistence offer is shown,
the delegated invocation carries that profile's identity, and the exit
status is the delegated tool's. -/
theorem select_falls_back_to_first_profile
    (env : Env) (config : Config) (args : List String) (cmd : String)
    (p : Profile) (ps : List Profile)
    (hprofiles : config.profiles = p :: ps)
    (hfirst : args.head? = some cmd)
    (hint : config.intercepted_commands.contains cmd = true)
    (hnc : cmd ≠ "clone")
    (hdet : (detect_profile env config).2 = none)
    (hsel : env.selectInteract = none)
    (hin : env.insideRepo = true)
    (hconf : env.confirmPersist = some false)
    (hlog : env.logOk = true) :
    select_profile env.selectInteract config = some p ∧
    Event.promptPersist ∈ (handle_git_command env config args).1 ∧
    Event.spawn (sshEnvOf p) none (delegatedArgs p args) ∈
      (handle_git_command env config args).1 ∧
    (handle_git_command env config args).2 = CmdResult.exit env.delegatedStatus := by
  have hselp : select_profile env.selectInteract config = some p := by
    rw [hsel]
    unfold select_profile
    rw [hprofiles]
    simp
  have hic : (args.head? == some "clone") = false := by
    rw [hfirst, beq_eq_false_iff_ne]
    simp [hnc]
  refine ⟨hselp, ?_, ?_, ?_⟩ <;>
  · unfold handle_git_command intercept obtain_profile
    simp only [hfirst, hint, Bool.not_true, if_false, hdet, hselp, hic, hin, hconf,
      hlog, Bool.not_false, Bool.and_true, if_true]
    by_cases hds : env.delegatedStatus = 0 <;> simp [hds, hnc, List.mem_append]

/-- An environment whose selection prompt fails while everything else
cooperates. -/
def envSelectFail : Env :=
  { baseEnv with insideRepo := true, confirmPersist := some false }

/-- Witness for C10 at a concrete two-profile config whose selection prompt
fails. -/
theorem select_falls_back_witness :
    select_profile envSelectFail.selectInteract cfgAB = some profileA ∧
    Event.promptPersist ∈ (handle_git_command envSelectFail cfgAB ["push"]).1 ∧
    Event.spawn (sshEnvOf profileA) none (delegatedArgs profileA ["push"]) ∈
      (handle_git_command envSelectFail cfgAB ["push"]).1 ∧
    (handle_git_command envSelectFail cfgAB ["push"]).2 =
      CmdResult.exit envSelectFail.delegatedStatus :=
  select_falls_back_to_first_profile envSelectFail cfgAB ["push"] "push" profileA
    [profileB] rfl rfl (by decide) (by decide) rfl rfl rfl rfl rfl

end Gix
